import Mathlib

/-!
Verification of the chunk-stream multiplexing and message-framing engine of
the `rtmp` client (`client.go` and the wire-format constants file).

The source under `src/` is `client.go` (the connection pipeline: sendLoop,
receiveLoop, dispatchLoop, the protocol/command handlers, Disconnect) and the
constants file.  The header codec (`ReadHeader`, `Header.Write`), the
`Message` helper methods (`RemainingBytes`, `CalculateTimestamp`) and the
chunk-stream constructors (`NewInboundChunkStream`, `NewOutboundChunkStream`,
`NewOutboundHeader`) live in repository files that are not under `src/`;
those are modelled from the spec and carry a `Modelled from the spec:` doc
comment.  Everything else is translated directly from `client.go`.

Machine integers: all Go `uint32` fields are modelled as `Nat`, with an
explicit `% 4294967296` exactly where Go addition can overflow (the absolute
timestamp accumulation).  Go's bounded subtractions in the send loop
(`rem -= n`) never underflow because `n ≤ rem`, so plain `Nat` subtraction
is exact there.
-/

namespace Rtmp

/-! ### Wire-format constants (src/unnamed/part_000) -/

def TIMESTAMP_MAX : Nat := 2000000000
def TIMESTAMP_EXTENDED : Nat := 0xFFFFFF

def CHUNK_STREAM_ID_PROTOCOL : Nat := 2
def CHUNK_STREAM_ID_COMMAND : Nat := 3
def CHUNK_STREAM_ID_USER_CONTROL : Nat := 4

def HEADER_FORMAT_FULL : Nat := 0x00
def HEADER_FORMAT_SAME_STREAM : Nat := 0x01
def HEADER_FORMAT_SAME_LENGTH_AND_STREAM : Nat := 0x02
def HEADER_FORMAT_CONTINUATION : Nat := 0x03

def MESSAGE_TYPE_CHUNK_SIZE : Nat := 0x01
def MESSAGE_TYPE_ACK_SIZE : Nat := 0x05
def MESSAGE_TYPE_BANDWIDTH : Nat := 0x06
def MESSAGE_TYPE_AMF0 : Nat := 0x14

def DEFAULT_CHUNK_SIZE : Nat := 128
def DEFAULT_WINDOW_SIZE : Nat := 2500000

/-- Modulus of Go's `uint32` arithmetic. -/
def UINT32_MOD : Nat := 4294967296

/-! ### Data model -/

/-- The decoded chunk header.  Fields as used by `client.go` (the struct
itself is declared in a repository file outside `src/`; the field set is
exactly the one `client.go` reads and writes: `Format`, `ChunkStreamId`,
`Timestamp`, `MessageLength`, `MessageTypeId`, `MessageStreamId`). -/
structure Header where
  Format : Nat
  ChunkStreamId : Nat
  Timestamp : Nat
  MessageLength : Nat
  MessageTypeId : Nat
  MessageStreamId : Nat
deriving DecidableEq

/-- A protocol message.  Field set from the `Message` literals in
`client.go` (lines 156-161 and 336-344).  Go field `Type` is spelled
`MsgType` (`Type` is a Lean keyword); `Buffer` is the payload byte buffer. -/
structure Message where
  MsgType : Nat
  ChunkStreamId : Nat
  StreamId : Nat
  Timestamp : Nat
  AbsoluteTimestamp : Nat
  Length : Nat
  Buffer : List UInt8
deriving DecidableEq

/-- Modelled from the spec: `Message.RemainingBytes` (declared outside
`src/`) returns the number of payload bytes still missing, i.e. declared
length minus buffer length (§3: `buffer.length ≤ declared length`; a message
is complete exactly when the two are equal). -/
def RemainingBytes (m : Message) : Nat := m.Length - m.Buffer.length

/-- Modelled from the spec: `Header.CalculateTimestamp` (declared outside
`src/`).  Per §4.1 the codec already replaces the 3-byte extended-timestamp
marker by the following 32-bit value during decode, so the header's
timestamp field is the resolved value. -/
def CalculateTimestamp (h : Header) : Nat := h.Timestamp

/-- Per-chunk-stream inbound state (struct declared outside `src/`; the
field set is exactly what `client.go` uses: `lastHeader`,
`lastInAbsoluteTimestamp`, `currentMessage`). -/
structure InboundChunkStream where
  id : Nat
  lastHeader : Option Header
  lastInAbsoluteTimestamp : Nat
  currentMessage : Option Message
deriving DecidableEq

/-- Modelled from the spec: `NewInboundChunkStream` (declared outside
`src/`) creates fresh inbound state with no prior header, no in-progress
message and a zero resolved timestamp (§3). -/
def NewInboundChunkStream (id : Nat) : InboundChunkStream :=
  { id := id, lastHeader := none, lastInAbsoluteTimestamp := 0, currentMessage := none }

/-- Per-chunk-stream outbound state (struct declared outside `src/`; §3:
the outbound variant remembers the last header sent on the id). -/
structure OutboundChunkStream where
  id : Nat
  lastHeader : Option Header
deriving DecidableEq

/-- Modelled from the spec: `NewOutboundChunkStream` (declared outside
`src/`) creates fresh outbound state with no header sent yet. -/
def NewOutboundChunkStream (id : Nat) : OutboundChunkStream :=
  { id := id, lastHeader := none }

/-- Modelled from the spec: `OutboundChunkStream.NewOutboundHeader`
(declared outside `src/`).  Per §4.3 the send path constructs a FULL-format
header for the first chunk of each message, populated from the message's
own fields; it does not use the per-id history (`each message starts
fresh`). -/
def NewOutboundHeader (_ : OutboundChunkStream) (m : Message) : Header :=
  { Format := HEADER_FORMAT_FULL
    ChunkStreamId := m.ChunkStreamId
    Timestamp := m.Timestamp
    MessageLength := m.Length
    MessageTypeId := m.MsgType
    MessageStreamId := m.StreamId }

/-- Handler callbacks of the `ClientHandler` interface (src lines 17-21).
The pipeline state records every invocation in a trace; `client.go` never
assigns the `handler` field nor calls any of its methods, so no translated
operation appends an event. -/
inductive HandlerEvent where
  | onConnect
  | onDisconnect
  | onReceive (m : Message)
deriving DecidableEq

/-- The connection-level state of `Client` that the pipeline loops touch:
the connected flag, the negotiated chunk sizes, the two chunk-stream-state
maps (modelled as lookup functions), and the trace of handler invocations. -/
structure CState where
  connected : Bool
  inChunkSize : Nat
  outChunkSize : Nat
  inChunkStreams : Nat → Option InboundChunkStream
  outChunkStreams : Nat → Option OutboundChunkStream
  events : List HandlerEvent

/-- Map update, modelling `m[k] = v` on a Go map. -/
def mapInsert {α : Type} (f : Nat → Option α) (k : Nat) (v : α) : Nat → Option α :=
  fun j => if j = k then some v else f j

/-- The state built by `NewClient` (src lines 47-62): not connected, default
chunk sizes, both chunk-stream maps empty. -/
def NewClientState : CState :=
  { connected := false
    inChunkSize := DEFAULT_CHUNK_SIZE
    outChunkSize := DEFAULT_CHUNK_SIZE
    inChunkStreams := fun _ => none
    outChunkStreams := fun _ => none
    events := [] }

/-- `Client.Disconnect` (src lines 168-173): clear the connected flag and
close the socket.  No handler method is invoked (the trace is untouched). -/
def Disconnect (c : CState) : CState := { c with connected := false }

/-- `Client.handleCommandMessage` (src lines 208-212): logs the message and
unconditionally sets the connected flag. -/
def handleCommandMessage (c : CState) (_ : Message) : CState :=
  { c with connected := true }

/-- Reads a 32-bit big-endian value from the first four bytes, as
`binary.BigEndian.Uint32` does.  (On fewer than four bytes Go panics; that
case is excluded by hypothesis wherever this is applied.) -/
def be32 (l : List UInt8) : Nat :=
  match l with
  | b0 :: b1 :: b2 :: b3 :: _ =>
    ((b0.toNat * 256 + b1.toNat) * 256 + b2.toNat) * 256 + b3.toNat
  | _ => 0

/-- `Client.handleProtocolMessage` (src lines 188-206): a chunk-size message
installs the big-endian 32-bit payload value as the new inbound chunk size;
ack-size, bandwidth and unknown types are only logged. -/
def handleProtocolMessage (c : CState) (m : Message) : CState :=
  if m.MsgType = MESSAGE_TYPE_CHUNK_SIZE then
    { c with inChunkSize := be32 m.Buffer }
  else
    c

/-- One turn of `Client.dispatchLoop` (src lines 175-186): route a dequeued
message by chunk-stream id.  The switch has cases only for the protocol and
command ids; any other message falls through the switch and is dropped. -/
def dispatchMessage (c : CState) (m : Message) : CState :=
  if m.ChunkStreamId = CHUNK_STREAM_ID_PROTOCOL then
    handleProtocolMessage c m
  else if m.ChunkStreamId = CHUNK_STREAM_ID_COMMAND then
    handleCommandMessage c m
  else
    c

/-! ### The wire

The header codec (`ReadHeader` / `Header.Write`) is declared outside `src/`.
Modelled from the spec (§4.1): the wire is abstracted to a token stream in
which a header occupies one token and each payload byte one token; encoding
a header drops (zeroes) the fields its format omits, exactly per the §4.1
table.  A read that runs into the wrong token kind (which at byte level
would deserialize garbage after a misaligned read, or block forever at end
of stream) surfaces as a read failure, which `client.go` treats as
connection-fatal. -/

inductive WireItem where
  | header (h : Header)
  | byte (b : UInt8)
deriving DecidableEq

/-- Modelled from the spec: `Header.Write` transmits only the fields the
format includes (§4.1 table); a field absent on the wire decodes as zero on
the peer.  FULL carries everything; SAME_STREAM omits the stream id;
SAME_LENGTH_AND_STREAM also omits length and type; CONTINUATION carries no
message header at all. -/
def encodeHeader (h : Header) : Header :=
  if h.Format = HEADER_FORMAT_FULL then h
  else if h.Format = HEADER_FORMAT_SAME_STREAM then
    { h with MessageStreamId := 0 }
  else if h.Format = HEADER_FORMAT_SAME_LENGTH_AND_STREAM then
    { h with MessageStreamId := 0, MessageLength := 0, MessageTypeId := 0 }
  else
    { h with MessageStreamId := 0, MessageLength := 0, MessageTypeId := 0, Timestamp := 0 }

/-- Reading `n` payload bytes from the wire (`io.CopyN(m.Buffer, c, n)`).
Fails if the stream ends or a header token is met before `n` bytes. -/
def takeBytes : Nat → List WireItem → Option (List UInt8 × List WireItem)
  | 0, w => some ([], w)
  | _ + 1, [] => none
  | n + 1, WireItem.byte b :: w =>
    match takeBytes n w with
    | some (bs, rest) => some (b :: bs, rest)
    | none => none
  | _ + 1, WireItem.header _ :: _ => none

/-! ### Send path (`Client.sendLoop`, src lines 214-266) -/

/-- The chunk-emission loop of `Client.sendLoop` (src lines 230-261): while
`rem > 0`, write the header, then `ws = min rem outChunkSize` payload
bytes, subtract, and flip the header format to CONTINUATION for the next
iteration.  The `fuel` argument only bounds the recursion; with chunk size
`≥ 1` every iteration consumes at least one byte of `rem`, so `fuel = rem`
never runs out (all theorems assume a positive chunk size; with chunk size
`0` the Go loop does not terminate). -/
def sendLoopGo : Nat → Header → List UInt8 → Nat → Nat → List WireItem
  | 0, _, _, _, _ => []
  | fuel + 1, h, buf, rem, C =>
    if rem = 0 then []
    else
      let ws := min rem C
      WireItem.header (encodeHeader h) :: ((buf.take ws).map WireItem.byte)
        ++ sendLoopGo fuel { h with Format := HEADER_FORMAT_CONTINUATION }
            (buf.drop ws) (rem - ws) C

/-- The chunk sequence `sendLoop` emits for one message with negotiated
outbound chunk size `C` (src lines 223-261: fresh FULL header from the
message, then the emission loop). -/
def sendChunks (m : Message) (C : Nat) : List WireItem :=
  sendLoopGo m.Length (NewOutboundHeader (NewOutboundChunkStream m.ChunkStreamId) m)
    m.Buffer m.Length C

/-- One turn of `Client.sendLoop` (src lines 216-263): look up the outbound
chunk-stream state, creating a fresh one when the map has no entry — the
map is never written back (src lines 218-221 contain no insertion) — then
emit the message's chunks.  Returns the (unchanged) state and the emitted
wire. -/
def sendOnce (c : CState) (m : Message) : CState × List WireItem :=
  let cs :=
    match c.outChunkStreams m.ChunkStreamId with
    | some cs => cs
    | none => NewOutboundChunkStream m.ChunkStreamId
  (c, sendLoopGo m.Length (NewOutboundHeader cs m) m.Buffer m.Length c.outChunkSize)

/-! ### Receive path (`Client.receiveLoop`, src lines 268-371) -/

/-- Result of one iteration of the receive loop: either the loop continues
with a new state, the remaining wire and an optionally completed message,
or it returns (read error / framing fault), leaving a final state. -/
inductive StepResult where
  | ok (st : CState) (rest : List WireItem) (out : Option Message)
  | halt (st : CState)

/-- The `switch h.Format` of `receiveLoop` (src lines 297-333): returns the
resolved header, the resolved absolute timestamp `ts`, the in-progress
message to reuse (continuation only) and the new `cs.lastHeader`.
Timestamp accumulation is Go `uint32` addition, hence `% UINT32_MOD`.
The `none` fall-throughs mirror Go: the last-header match is unreachable
behind the guard at src lines 291-295, and a format outside the four cases
leaves everything untouched with `ts = 0` (its `var ts uint32` default). -/
def resolveHeader (cs : InboundChunkStream) (h : Header) :
    Header × Nat × Option Message × Option Header :=
  if h.Format = HEADER_FORMAT_FULL then
    (h, h.Timestamp, none, some h)
  else
    match cs.lastHeader with
    | none => (h, 0, none, none)
    | some lh =>
      if h.Format = HEADER_FORMAT_SAME_STREAM then
        let h2 := { h with MessageStreamId := lh.MessageStreamId }
        (h2, (cs.lastInAbsoluteTimestamp + h.Timestamp) % UINT32_MOD, none, some h2)
      else if h.Format = HEADER_FORMAT_SAME_LENGTH_AND_STREAM then
        let h2 := { h with MessageStreamId := lh.MessageStreamId,
                           MessageLength := lh.MessageLength,
                           MessageTypeId := lh.MessageTypeId }
        (h2, (cs.lastInAbsoluteTimestamp + h.Timestamp) % UINT32_MOD, none, some h2)
      else if h.Format = HEADER_FORMAT_CONTINUATION then
        let h2 := { h with MessageStreamId := lh.MessageStreamId,
                           MessageLength := lh.MessageLength,
                           MessageTypeId := lh.MessageTypeId,
                           Timestamp := lh.Timestamp }
        (h2, (cs.lastInAbsoluteTimestamp + lh.Timestamp) % UINT32_MOD,
         cs.currentMessage, cs.lastHeader)
      else
        (h, 0, none, cs.lastHeader)

/-- The body of one `receiveLoop` iteration after the chunk-stream lookup
(src lines 291-369): reject a non-FULL header with no prior header
(`Disconnect` and return), resolve the header, allocate or reuse the
message, record `lastInAbsoluteTimestamp`, read
`min(m.RemainingBytes, inChunkSize)` payload bytes, and either emit the
completed message or store it back as in progress. -/
def receiveChunk (c : CState) (cs : InboundChunkStream) (h : Header)
    (rest : List WireItem) : StepResult :=
  if cs.lastHeader = none ∧ h.Format ≠ HEADER_FORMAT_FULL then
    StepResult.halt (Disconnect c)
  else
    let r := resolveHeader cs h
    let h2 := r.1
    let ts := r.2.1
    let m :=
      match r.2.2.1 with
      | some m => m
      | none =>
        { MsgType := h2.MessageTypeId
          ChunkStreamId := h2.ChunkStreamId
          StreamId := h2.MessageStreamId
          Timestamp := CalculateTimestamp h2
          AbsoluteTimestamp := ts
          Length := h2.MessageLength
          Buffer := [] }
    let cs2 := { cs with lastHeader := r.2.2.2, lastInAbsoluteTimestamp := ts }
    let rs := min (RemainingBytes m) c.inChunkSize
    match takeBytes rs rest with
    | none => StepResult.halt (if c.connected then Disconnect c else c)
    | some (bs, rest2) =>
      let m2 := { m with Buffer := m.Buffer ++ bs }
      if RemainingBytes m2 = 0 then
        StepResult.ok
          { c with inChunkStreams :=
              mapInsert c.inChunkStreams h.ChunkStreamId { cs2 with currentMessage := none } }
          rest2 (some m2)
      else
        StepResult.ok
          { c with inChunkStreams :=
              mapInsert c.inChunkStreams h.ChunkStreamId { cs2 with currentMessage := some m2 } }
          rest2 none

/-- One full iteration of `Client.receiveLoop` (src lines 269-370): read the
next header (failure — end of stream or a misaligned read — disconnects if
connected and returns), look up or create the chunk-stream state (src lines
282-286, inserting a fresh one into the map), then process the chunk. -/
def receiveOnce (c : CState) (wire : List WireItem) : StepResult :=
  match wire with
  | WireItem.header h :: rest =>
    match c.inChunkStreams h.ChunkStreamId with
    | some cs => receiveChunk c cs h rest
    | none =>
      let cs := NewInboundChunkStream h.ChunkStreamId
      receiveChunk
        { c with inChunkStreams := mapInsert c.inChunkStreams h.ChunkStreamId cs }
        cs h rest
  | _ => StepResult.halt (if c.connected then Disconnect c else c)

/-- Observer on wires: the lengths of the payload-byte runs attached to
each header (the chunk body sizes, in wire order).  `acc` carries the byte
count of the chunk currently open. -/
def chunkRunsGo : Option Nat → List WireItem → List Nat
  | acc, [] =>
    (match acc with
     | some n => [n]
     | none => [])
  | acc, WireItem.header _ :: rest =>
    (match acc with
     | some n => [n]
     | none => []) ++ chunkRunsGo (some 0) rest
  | acc, WireItem.byte _ :: rest =>
    (match acc with
     | some n => chunkRunsGo (some (n + 1)) rest
     | none => chunkRunsGo none rest)

/-- The chunk body sizes of a wire, in order. -/
def chunkRuns (w : List WireItem) : List Nat := chunkRunsGo none w

/-- Run up to `n` iterations of the receive loop, collecting the completed
messages it pushes to the dispatch queue, in order. -/
def runReceive : Nat → CState → List WireItem → CState × List WireItem × List Message
  | 0, c, wire => (c, wire, [])
  | n + 1, c, wire =>
    match receiveOnce c wire with
    | StepResult.halt c2 => (c2, wire, [])
    | StepResult.ok c2 rest out =>
      let r := runReceive n c2 rest
      (r.1, r.2.1, out.toList ++ r.2.2)

/-! ### Basic lemmas -/

theorem mapInsert_self {α : Type} (f : Nat → Option α) (k : Nat) (v : α) :
    mapInsert f k v k = some v := by
  simp [mapInsert]

theorem mapInsert_other {α : Type} (f : Nat → Option α) (k j : Nat) (v : α)
    (h : j ≠ k) : mapInsert f k v j = f j := by
  simp [mapInsert, h]

theorem takeBytes_exact (l : List UInt8) (w : List WireItem) :
    takeBytes l.length (l.map WireItem.byte ++ w) = some (l, w) := by
  induction l with
  | nil => rfl
  | cons b t ih => simp [takeBytes, ih]

theorem takeBytes_length : ∀ (n : Nat) (w : List WireItem) (bs : List UInt8)
    (rest : List WireItem), takeBytes n w = some (bs, rest) → bs.length = n := by
  intro n
  induction n with
  | zero =>
    intro w bs rest h
    simp only [takeBytes, Option.some.injEq, Prod.mk.injEq] at h
    rw [← h.1]
    rfl
  | succ k ih =>
    intro w bs rest h
    match w with
    | [] => cases h
    | WireItem.header _ :: _ => cases h
    | WireItem.byte b :: t =>
      simp only [takeBytes] at h
      cases htb : takeBytes k t with
      | none => rw [htb] at h; cases h
      | some p =>
        rw [htb] at h
        cases h
        simpa using ih t p.1 p.2 htb

/-- Reduction of `receiveOnce` when the chunk-stream map has an entry. -/
theorem receiveOnce_lookup_some (c : CState) (h : Header) (rest : List WireItem)
    (cs : InboundChunkStream) (hlook : c.inChunkStreams h.ChunkStreamId = some cs) :
    receiveOnce c (WireItem.header h :: rest) = receiveChunk c cs h rest := by
  simp only [receiveOnce, hlook]

/-- Reduction of `receiveOnce` when the chunk-stream map has no entry: a
fresh chunk stream is created and inserted (src lines 283-286). -/
theorem receiveOnce_lookup_none (c : CState) (h : Header) (rest : List WireItem)
    (hlook : c.inChunkStreams h.ChunkStreamId = none) :
    receiveOnce c (WireItem.header h :: rest) =
      receiveChunk
        { c with inChunkStreams :=
            mapInsert c.inChunkStreams h.ChunkStreamId (NewInboundChunkStream h.ChunkStreamId) }
        (NewInboundChunkStream h.ChunkStreamId) h rest := by
  simp only [receiveOnce, hlook]

/-- The framing-fault guard of the receive loop (src lines 291-295). -/
theorem receiveChunk_guard (c : CState) (cs : InboundChunkStream) (h : Header)
    (rest : List WireItem) (hl : cs.lastHeader = none)
    (hf : h.Format ≠ HEADER_FORMAT_FULL) :
    receiveChunk c cs h rest = StepResult.halt (Disconnect c) := by
  unfold receiveChunk
  rw [if_pos ⟨hl, hf⟩]

theorem sendLoopGo_zero (fuel : Nat) (h : Header) (buf : List UInt8) (C : Nat) :
    sendLoopGo fuel h buf 0 C = [] := by
  cases fuel <;> rfl

theorem sendLoopGo_pos (fuel : Nat) (h : Header) (buf : List UInt8) (rem C : Nat)
    (hrem : rem ≠ 0) :
    sendLoopGo (fuel + 1) h buf rem C =
      WireItem.header (encodeHeader h) :: ((buf.take (min rem C)).map WireItem.byte)
        ++ sendLoopGo fuel { h with Format := HEADER_FORMAT_CONTINUATION }
            (buf.drop (min rem C)) (rem - min rem C) C := by
  simp [sendLoopGo, hrem]

/-- The `switch` outcome for a CONTINUATION header (src lines 321-332). -/
theorem resolveHeader_cont (cs : InboundChunkStream) (lh h : Header)
    (hlast : cs.lastHeader = some lh) (hfmt : h.Format = HEADER_FORMAT_CONTINUATION) :
    resolveHeader cs h =
      ({ h with MessageStreamId := lh.MessageStreamId,
                MessageLength := lh.MessageLength,
                MessageTypeId := lh.MessageTypeId,
                Timestamp := lh.Timestamp },
       (cs.lastInAbsoluteTimestamp + lh.Timestamp) % UINT32_MOD,
       cs.currentMessage, cs.lastHeader) := by
  simp [resolveHeader, hlast, hfmt, HEADER_FORMAT_FULL, HEADER_FORMAT_SAME_STREAM,
    HEADER_FORMAT_SAME_LENGTH_AND_STREAM, HEADER_FORMAT_CONTINUATION]

/-- The `switch` outcome for a FULL header (src lines 298-303). -/
theorem resolveHeader_full (cs : InboundChunkStream) (h : Header)
    (hfmt : h.Format = HEADER_FORMAT_FULL) :
    resolveHeader cs h = (h, h.Timestamp, none, some h) := by
  simp [resolveHeader, hfmt, HEADER_FORMAT_FULL]

/-- The `switch` outcome for a SAME_LENGTH_AND_STREAM header (src lines
312-319). -/
theorem resolveHeader_sls (cs : InboundChunkStream) (lh h : Header)
    (hlast : cs.lastHeader = some lh)
    (hfmt : h.Format = HEADER_FORMAT_SAME_LENGTH_AND_STREAM) :
    resolveHeader cs h =
      ({ h with MessageStreamId := lh.MessageStreamId,
                MessageLength := lh.MessageLength,
                MessageTypeId := lh.MessageTypeId },
       (cs.lastInAbsoluteTimestamp + h.Timestamp) % UINT32_MOD,
       none,
       some { h with MessageStreamId := lh.MessageStreamId,
                     MessageLength := lh.MessageLength,
                     MessageTypeId := lh.MessageTypeId }) := by
  simp [resolveHeader, hlast, hfmt, HEADER_FORMAT_FULL, HEADER_FORMAT_SAME_STREAM,
    HEADER_FORMAT_SAME_LENGTH_AND_STREAM]

/-- One receive-loop iteration on a CONTINUATION chunk with an in-progress
message: the stored delta `lh.Timestamp` is re-applied to the current
`lastInAbsoluteTimestamp`, the result is stored back as the new
`lastInAbsoluteTimestamp`, `lastHeader` stays, and
`min(RemainingBytes, inChunkSize)` bytes are appended to the message. -/
theorem receiveChunk_cont (c : CState) (cs : InboundChunkStream) (pm : Message)
    (lh h : Header) (rest : List WireItem) (bs : List UInt8) (rest2 : List WireItem)
    (hlast : cs.lastHeader = some lh)
    (hcur : cs.currentMessage = some pm)
    (hfmt : h.Format = HEADER_FORMAT_CONTINUATION)
    (htake : takeBytes (min (RemainingBytes pm) c.inChunkSize) rest = some (bs, rest2)) :
    receiveChunk c cs h rest =
      (if RemainingBytes { pm with Buffer := pm.Buffer ++ bs } = 0 then
        StepResult.ok
          { c with inChunkStreams :=
              (mapInsert c.inChunkStreams h.ChunkStreamId
                { cs with lastHeader := some lh,
                          lastInAbsoluteTimestamp :=
                            (cs.lastInAbsoluteTimestamp + lh.Timestamp) % UINT32_MOD,
                          currentMessage := none }) }
          rest2 (some { pm with Buffer := pm.Buffer ++ bs })
      else
        StepResult.ok
          { c with inChunkStreams :=
              (mapInsert c.inChunkStreams h.ChunkStreamId
                { cs with lastHeader := some lh,
                          lastInAbsoluteTimestamp :=
                            (cs.lastInAbsoluteTimestamp + lh.Timestamp) % UINT32_MOD,
                          currentMessage :=
                            some { pm with Buffer := pm.Buffer ++ bs } }) }
          rest2 none) := by
  unfold receiveChunk
  rw [if_neg (by rw [hlast]; rintro ⟨h1, -⟩; cases h1)]
  rw [resolveHeader_cont cs lh h hlast hfmt]
  dsimp only
  rw [hcur, hlast]
  dsimp only
  rw [htake]

/-- One receive-loop iteration on a FULL chunk: a brand-new message is
allocated from the header (the in-progress one, if any, is abandoned),
`lastHeader` is replaced and the absolute timestamp is taken directly from
the header. -/
theorem receiveChunk_full (c : CState) (cs : InboundChunkStream) (h : Header)
    (rest : List WireItem) (bs : List UInt8) (rest2 : List WireItem)
    (hfmt : h.Format = HEADER_FORMAT_FULL)
    (htake : takeBytes (min h.MessageLength c.inChunkSize) rest = some (bs, rest2)) :
    receiveChunk c cs h rest =
      (if h.MessageLength - bs.length = 0 then
        StepResult.ok
          { c with inChunkStreams :=
              (mapInsert c.inChunkStreams h.ChunkStreamId
                { cs with lastHeader := some h,
                          lastInAbsoluteTimestamp := h.Timestamp,
                          currentMessage := none }) }
          rest2
          (some { MsgType := h.MessageTypeId,
                  ChunkStreamId := h.ChunkStreamId,
                  StreamId := h.MessageStreamId,
                  Timestamp := h.Timestamp,
                  AbsoluteTimestamp := h.Timestamp,
                  Length := h.MessageLength,
                  Buffer := bs })
      else
        StepResult.ok
          { c with inChunkStreams :=
              (mapInsert c.inChunkStreams h.ChunkStreamId
                { cs with lastHeader := some h,
                          lastInAbsoluteTimestamp := h.Timestamp,
                          currentMessage :=
                            some { MsgType := h.MessageTypeId,
                                   ChunkStreamId := h.ChunkStreamId,
                                   StreamId := h.MessageStreamId,
                                   Timestamp := h.Timestamp,
                                   AbsoluteTimestamp := h.Timestamp,
                                   Length := h.MessageLength,
                                   Buffer := bs } }) }
          rest2 none) := by
  unfold receiveChunk
  rw [if_neg (by rw [hfmt]; rintro ⟨-, h2⟩; exact h2 rfl)]
  rw [resolveHeader_full cs h hfmt]
  dsimp only
  rw [show RemainingBytes { MsgType := h.MessageTypeId,
                            ChunkStreamId := h.ChunkStreamId,
                            StreamId := h.MessageStreamId,
                            Timestamp := CalculateTimestamp h,
                            AbsoluteTimestamp := h.Timestamp,
                            Length := h.MessageLength,
                            Buffer := [] }
      = h.MessageLength from rfl]
  rw [htake]
  dsimp only
  rfl

/-- One receive-loop iteration on a SAME_LENGTH_AND_STREAM chunk: stream
id, length and type are inherited from the last header, the timestamp on
the wire is a delta added to the current `lastInAbsoluteTimestamp`, the
resolved header replaces `lastHeader`, and a fresh message is allocated
(any in-progress message is abandoned, as in the code). -/
theorem receiveChunk_sls (c : CState) (cs : InboundChunkStream) (lh h : Header)
    (rest : List WireItem) (bs : List UInt8) (rest2 : List WireItem)
    (hlast : cs.lastHeader = some lh)
    (hfmt : h.Format = HEADER_FORMAT_SAME_LENGTH_AND_STREAM)
    (htake : takeBytes (min lh.MessageLength c.inChunkSize) rest = some (bs, rest2)) :
    receiveChunk c cs h rest =
      (if lh.MessageLength - bs.length = 0 then
        StepResult.ok
          { c with inChunkStreams :=
              (mapInsert c.inChunkStreams h.ChunkStreamId
                { cs with lastHeader :=
                            some { h with MessageStreamId := lh.MessageStreamId,
                                          MessageLength := lh.MessageLength,
                                          MessageTypeId := lh.MessageTypeId },
                          lastInAbsoluteTimestamp :=
                            (cs.lastInAbsoluteTimestamp + h.Timestamp) % UINT32_MOD,
                          currentMessage := none }) }
          rest2
          (some { MsgType := lh.MessageTypeId,
                  ChunkStreamId := h.ChunkStreamId,
                  StreamId := lh.MessageStreamId,
                  Timestamp := h.Timestamp,
                  AbsoluteTimestamp := (cs.lastInAbsoluteTimestamp + h.Timestamp) % UINT32_MOD,
                  Length := lh.MessageLength,
                  Buffer := bs })
      else
        StepResult.ok
          { c with inChunkStreams :=
              (mapInsert c.inChunkStreams h.ChunkStreamId
                { cs with lastHeader :=
                            some { h with MessageStreamId := lh.MessageStreamId,
                                          MessageLength := lh.MessageLength,
                                          MessageTypeId := lh.MessageTypeId },
                          lastInAbsoluteTimestamp :=
                            (cs.lastInAbsoluteTimestamp + h.Timestamp) % UINT32_MOD,
                          currentMessage :=
                            some { MsgType := lh.MessageTypeId,
                                   ChunkStreamId := h.ChunkStreamId,
                                   StreamId := lh.MessageStreamId,
                                   Timestamp := h.Timestamp,
                                   AbsoluteTimestamp :=
                                     (cs.lastInAbsoluteTimestamp + h.Timestamp) % UINT32_MOD,
                                   Length := lh.MessageLength,
                                   Buffer := bs } }) }
          rest2 none) := by
  unfold receiveChunk
  rw [if_neg (by rw [hlast]; rintro ⟨h1, -⟩; cases h1)]
  rw [resolveHeader_sls cs lh h hlast hfmt]
  dsimp only
  rw [show RemainingBytes { MsgType := lh.MessageTypeId,
                            ChunkStreamId := h.ChunkStreamId,
                            StreamId := lh.MessageStreamId,
                            Timestamp :=
                              CalculateTimestamp
                                { h with MessageStreamId := lh.MessageStreamId,
                                         MessageLength := lh.MessageLength,
                                         MessageTypeId := lh.MessageTypeId },
                            AbsoluteTimestamp :=
                              (cs.lastInAbsoluteTimestamp + h.Timestamp) % UINT32_MOD,
                            Length := lh.MessageLength,
                            Buffer := [] } = lh.MessageLength from rfl]
  rw [htake]
  dsimp only
  rfl

/-! ### C2 — dispatch routing (code bug: OnReceive is never invoked) -/

/-- C2: the dispatch loop routes protocol (chunk-stream-id 2) messages to the
protocol handler and command (id 3) messages to the command handler; but a
message on any other chunk-stream-id falls through the switch (src lines
179-184 has no default case) and is silently dropped: the state, including
the handler-invocation trace, is unchanged, so `OnReceive` is never called.
The final conjunct evaluates the code on a concrete completed message on
chunk-stream-id 5: no handler event is recorded. -/
theorem c2_dispatch_routing :
    (∀ (c : CState) (m : Message),
      dispatchMessage c { m with ChunkStreamId := 2 }
        = handleProtocolMessage c { m with ChunkStreamId := 2 })
    ∧ (∀ (c : CState) (m : Message),
      dispatchMessage c { m with ChunkStreamId := 3 }
        = handleCommandMessage c { m with ChunkStreamId := 3 })
    ∧ (∀ (c : CState) (m : Message),
      dispatchMessage c { m with ChunkStreamId := 5 } = c)
    ∧ (dispatchMessage NewClientState
        { MsgType := 9, ChunkStreamId := 5, StreamId := 1, Timestamp := 0,
          AbsoluteTimestamp := 0, Length := 1, Buffer := [37] }).events = [] :=
  ⟨fun _ _ => rfl, fun _ _ => rfl, fun _ _ => rfl, rfl⟩

/-! ### C7 — disconnect notification (code bug: OnDisconnect is never invoked) -/

/-- C7: evaluating the code at a transport fault while connected: a header
read failure in `receiveLoop` calls `Disconnect`, which only clears the
connected flag and closes the socket (src lines 168-173); no operation ever
invokes a `ClientHandler` method, so the handler-event trace stays empty —
zero disconnect notifications are observable, not one. -/
theorem c7_no_disconnect_notification :
    (∀ c : CState, (Disconnect c).events = c.events ∧ (Disconnect c).connected = false)
    ∧ receiveOnce { NewClientState with connected := true } []
        = StepResult.halt (Disconnect { NewClientState with connected := true })
    ∧ (Disconnect { NewClientState with connected := true }).events = [] :=
  ⟨fun _ => ⟨rfl, rfl⟩, rfl, rfl⟩

/-! ### C9 — outbound chunk-stream-state map (corrected: never updated) -/

/-- C9 counterexample: after the send path processes a message on
chunk-stream-id 5 starting from the freshly constructed client state, the
outbound chunk-stream map still has no entry for 5 — the claim says an
entry recording the last header sent must be present. -/
theorem c9_counterexample :
    ((sendOnce NewClientState
        { MsgType := 20, ChunkStreamId := 5, StreamId := 1, Timestamp := 0,
          AbsoluteTimestamp := 0, Length := 1, Buffer := [7] }).1).outChunkStreams 5
      = none := rfl

/-- C9 amended: `sendLoop` looks up the outbound chunk-stream map and
creates a fresh `OutboundChunkStream` when the entry is missing, but never
stores it back (src lines 218-221 contain no map insertion), so the map is
unchanged by every send; starting from the fresh client state it stays
empty after any sequence of sends, and a next message on the same
chunk-stream-id never finds prior per-id state. -/
theorem c9_outbound_map_unchanged (c : CState) (m : Message) (i : Nat) :
    ((sendOnce c m).1).outChunkStreams i = c.outChunkStreams i
    ∧ ∀ ms : List Message,
        ((ms.foldl (fun st mm => (sendOnce st mm).1) NewClientState).outChunkStreams i)
          = none := by
  refine ⟨rfl, ?_⟩
  intro ms
  induction ms with
  | nil => rfl
  | cons mm t ih => exact ih

/-! ### C3 — CONTINUATION timestamp resolution (corrected: the base is
updated after every chunk, so the recomputed value is not identical) -/

/-- C3 counterexample: inbound chunk size 1, one message of length 3 sent as
a FULL chunk with absolute timestamp 1 followed by two CONTINUATION chunks.
The per-chunk resolved absolute timestamp (stored in
`lastInAbsoluteTimestamp`, src line 347) is 2 after the first CONTINUATION
chunk and 3 after the second — not identical, because line 347 moves the
base before the same delta is re-applied.  The claim asserts the
recomputation yields the identical absolute timestamp for every chunk of
the message. -/
theorem c3_counterexample :
    (((runReceive 2 { NewClientState with inChunkSize := 1 }
        [WireItem.header ⟨0, 5, 1, 3, 9, 7⟩, WireItem.byte 10,
         WireItem.header ⟨3, 5, 0, 0, 0, 0⟩, WireItem.byte 11,
         WireItem.header ⟨3, 5, 0, 0, 0, 0⟩, WireItem.byte 12]).1.inChunkStreams 5).map
      InboundChunkStream.lastInAbsoluteTimestamp = some 2)
    ∧ (((runReceive 3 { NewClientState with inChunkSize := 1 }
        [WireItem.header ⟨0, 5, 1, 3, 9, 7⟩, WireItem.byte 10,
         WireItem.header ⟨3, 5, 0, 0, 0, 0⟩, WireItem.byte 11,
         WireItem.header ⟨3, 5, 0, 0, 0, 0⟩, WireItem.byte 12]).1.inChunkStreams 5).map
      InboundChunkStream.lastInAbsoluteTimestamp = some 3) := by
  constructor <;> rfl

/-- C3 amended: each CONTINUATION chunk resolves its absolute timestamp as
`cs.lastInAbsoluteTimestamp + cs.lastHeader.timestamp` (mod 2^32), and the
resolved value immediately becomes the new `lastInAbsoluteTimestamp` (src
line 347) while `lastHeader` is left in place — so successive CONTINUATION
chunks of one message resolve to values that grow by the stored delta per
chunk; they are identical only when that stored timestamp delta is 0. -/
theorem c3_cont_timestamp (c : CState) (cs : InboundChunkStream) (pm : Message)
    (lh h : Header) (rest : List WireItem) (bs : List UInt8) (rest2 : List WireItem)
    (hlook : c.inChunkStreams h.ChunkStreamId = some cs)
    (hlast : cs.lastHeader = some lh)
    (hcur : cs.currentMessage = some pm)
    (hfmt : h.Format = HEADER_FORMAT_CONTINUATION)
    (htake : takeBytes (min (RemainingBytes pm) c.inChunkSize) rest = some (bs, rest2)) :
    ∃ st' out, receiveOnce c (WireItem.header h :: rest) = StepResult.ok st' rest2 out
      ∧ ∃ cs', st'.inChunkStreams h.ChunkStreamId = some cs'
        ∧ cs'.lastInAbsoluteTimestamp
            = (cs.lastInAbsoluteTimestamp + lh.Timestamp) % UINT32_MOD
        ∧ cs'.lastHeader = some lh := by
  rw [receiveOnce_lookup_some c h rest cs hlook,
    receiveChunk_cont c cs pm lh h rest bs rest2 hlast hcur hfmt htake]
  by_cases hz : RemainingBytes { pm with Buffer := pm.Buffer ++ bs } = 0
  · rw [if_pos hz]
    exact ⟨_, _, rfl, _, mapInsert_self .., rfl, rfl⟩
  · rw [if_neg hz]
    exact ⟨_, _, rfl, _, mapInsert_self .., rfl, rfl⟩

/-- C3 witness: a concrete CONTINUATION chunk on chunk-stream-id 5 with an
in-progress message (2 bytes missing, chunk size 1, previous delta 1,
previous absolute timestamp 1) resolves to absolute timestamp 2. -/
theorem c3_cont_timestamp_witness :
    ∃ st' out, receiveOnce
        { NewClientState with
            inChunkSize := 1
            inChunkStreams :=
              (mapInsert NewClientState.inChunkStreams 5
                { id := 5
                  lastHeader := some ⟨0, 5, 1, 3, 9, 7⟩
                  lastInAbsoluteTimestamp := 1
                  currentMessage :=
                    some { MsgType := 9
                           ChunkStreamId := 5
                           StreamId := 7
                           Timestamp := 1
                           AbsoluteTimestamp := 1
                           Length := 3
                           Buffer := [10] } }) }
        (WireItem.header ⟨3, 5, 0, 0, 0, 0⟩ :: [WireItem.byte 11])
        = StepResult.ok st' [] out
      ∧ ∃ cs', st'.inChunkStreams 5 = some cs'
        ∧ cs'.lastInAbsoluteTimestamp = (1 + 1) % UINT32_MOD
        ∧ cs'.lastHeader = some ⟨0, 5, 1, 3, 9, 7⟩ :=
  c3_cont_timestamp
    { NewClientState with
        inChunkSize := 1
        inChunkStreams :=
          (mapInsert NewClientState.inChunkStreams 5
            { id := 5
              lastHeader := some ⟨0, 5, 1, 3, 9, 7⟩
              lastInAbsoluteTimestamp := 1
              currentMessage :=
                some { MsgType := 9
                       ChunkStreamId := 5
                       StreamId := 7
                       Timestamp := 1
                       AbsoluteTimestamp := 1
                       Length := 3
                       Buffer := [10] } }) }
    { id := 5
      lastHeader := some ⟨0, 5, 1, 3, 9, 7⟩
      lastInAbsoluteTimestamp := 1
      currentMessage :=
        some { MsgType := 9
               ChunkStreamId := 5
               StreamId := 7
               Timestamp := 1
               AbsoluteTimestamp := 1
               Length := 3
               Buffer := [10] } }
    { MsgType := 9, ChunkStreamId := 5, StreamId := 7, Timestamp := 1,
      AbsoluteTimestamp := 1, Length := 3, Buffer := [10] }
    ⟨0, 5, 1, 3, 9, 7⟩ ⟨3, 5, 0, 0, 0, 0⟩ [WireItem.byte 11] [11] []
    (by rfl) (by rfl) (by rfl) (by rfl) (by rfl)

/-! ### C4 — non-FULL header on a fresh chunk stream is a framing fault -/

/-- C4: a header whose format is not FULL, arriving on a chunk-stream-id
with no prior header recorded (no map entry, or an entry with no last
header), makes `receiveLoop` disconnect and return (src lines 291-295): the
result is a halt with the connected flag cleared, no message is produced,
no payload bytes are consumed, and every previously existing chunk-stream
entry is left untouched. -/
theorem c4_fresh_non_full (c : CState) (h : Header) (rest : List WireItem)
    (hfresh : ∀ cs, c.inChunkStreams h.ChunkStreamId = some cs → cs.lastHeader = none)
    (hfmt : h.Format ≠ HEADER_FORMAT_FULL) :
    ∃ c2, receiveOnce c (WireItem.header h :: rest) = StepResult.halt c2
      ∧ c2.connected = false
      ∧ ∀ j cs0, c.inChunkStreams j = some cs0 → c2.inChunkStreams j = some cs0 := by
  cases hlook : c.inChunkStreams h.ChunkStreamId with
  | some cs =>
    have hl := hfresh cs hlook
    exact ⟨Disconnect c,
      by rw [receiveOnce_lookup_some c h rest cs hlook, receiveChunk_guard c cs h rest hl hfmt],
      rfl, fun j cs0 hj => hj⟩
  | none =>
    refine ⟨Disconnect
      { c with inChunkStreams :=
          mapInsert c.inChunkStreams h.ChunkStreamId (NewInboundChunkStream h.ChunkStreamId) },
      ?_, rfl, ?_⟩
    · rw [receiveOnce_lookup_none c h rest hlook,
        receiveChunk_guard _ _ h rest rfl hfmt]
    · intro j cs0 hj
      have hne : j ≠ h.ChunkStreamId := by
        intro e
        rw [e, hlook] at hj
        cases hj
      simpa [Disconnect, mapInsert, hne] using hj

/-- C4 witness: a CONTINUATION header on the fresh chunk-stream-id 7 of a
newly constructed client is rejected. -/
theorem c4_fresh_non_full_witness :
    ∃ c2, receiveOnce NewClientState
        [WireItem.header ⟨3, 7, 0, 0, 0, 0⟩] = StepResult.halt c2
      ∧ c2.connected = false
      ∧ ∀ j cs0, NewClientState.inChunkStreams j = some cs0 →
          c2.inChunkStreams j = some cs0 :=
  c4_fresh_non_full NewClientState ⟨3, 7, 0, 0, 0, 0⟩ []
    (fun _ hcs => Option.noConfusion hcs) (by decide)

/-! ### C6 — SAME_LENGTH_AND_STREAM header inheritance -/

/-- C6: on a fresh chunk stream, a FULL header establishing stream-id `S`,
length `N`, type `T` and absolute timestamp `t0` (completing its message in
one chunk), followed by a SAME_LENGTH_AND_STREAM header carrying
timestamp-delta `d`, resolves the second message to stream-id `S`, length
`N`, type `T` and absolute timestamp `t0 + d`, and the chunk stream's
`lastHeader` is replaced by the resolved header. -/
theorem c6_header_inheritance (c : CState) (csid S N T t0 d : Nat) (h1 h2 : Header)
    (bs1 bs2 : List UInt8) (tail : List WireItem)
    (hh1 : h1 = ⟨HEADER_FORMAT_FULL, csid, t0, N, T, S⟩)
    (hh2 : h2 = ⟨HEADER_FORMAT_SAME_LENGTH_AND_STREAM, csid, d, 0, 0, 0⟩)
    (hfresh : c.inChunkStreams csid = none)
    (hNC : N ≤ c.inChunkSize)
    (hb1 : bs1.length = N) (hb2 : bs2.length = N)
    (hsum : t0 + d < UINT32_MOD) :
    ∃ c1 m1, receiveOnce c
        (WireItem.header h1
          :: (bs1.map WireItem.byte
            ++ (WireItem.header h2 :: (bs2.map WireItem.byte ++ tail))))
        = StepResult.ok c1
            (WireItem.header h2 :: (bs2.map WireItem.byte ++ tail)) (some m1)
      ∧ ∃ c2 m2, receiveOnce c1
            (WireItem.header h2 :: (bs2.map WireItem.byte ++ tail))
          = StepResult.ok c2 tail (some m2)
        ∧ m2.StreamId = S ∧ m2.Length = N ∧ m2.MsgType = T
        ∧ m2.AbsoluteTimestamp = t0 + d
        ∧ ∃ cs2, c2.inChunkStreams csid = some cs2
          ∧ cs2.lastHeader = some ⟨HEADER_FORMAT_SAME_LENGTH_AND_STREAM, csid, d, N, T, S⟩
          ∧ cs2.lastInAbsoluteTimestamp = t0 + d := by
  subst hh1 hh2
  have hmin : min N c.inChunkSize = N := Nat.min_eq_left hNC
  have htake1 : takeBytes (min N c.inChunkSize)
      (bs1.map WireItem.byte
        ++ (WireItem.header ⟨HEADER_FORMAT_SAME_LENGTH_AND_STREAM, csid, d, 0, 0, 0⟩
          :: (bs2.map WireItem.byte ++ tail)))
      = some (bs1,
          WireItem.header ⟨HEADER_FORMAT_SAME_LENGTH_AND_STREAM, csid, d, 0, 0, 0⟩
            :: (bs2.map WireItem.byte ++ tail)) := by
    rw [hmin, ← hb1]
    exact takeBytes_exact _ _
  have step2 : ∀ (cx : CState) (csx : InboundChunkStream),
      cx.inChunkStreams csid = some csx →
      cx.inChunkSize = c.inChunkSize →
      csx.lastHeader = some ⟨HEADER_FORMAT_FULL, csid, t0, N, T, S⟩ →
      csx.lastInAbsoluteTimestamp = t0 →
      ∃ c2 m2, receiveOnce cx
          (WireItem.header ⟨HEADER_FORMAT_SAME_LENGTH_AND_STREAM, csid, d, 0, 0, 0⟩
            :: (bs2.map WireItem.byte ++ tail))
          = StepResult.ok c2 tail (some m2)
        ∧ m2.StreamId = S ∧ m2.Length = N ∧ m2.MsgType = T
        ∧ m2.AbsoluteTimestamp = t0 + d
        ∧ ∃ cs2, c2.inChunkStreams csid = some cs2
          ∧ cs2.lastHeader = some ⟨HEADER_FORMAT_SAME_LENGTH_AND_STREAM, csid, d, N, T, S⟩
          ∧ cs2.lastInAbsoluteTimestamp = t0 + d := by
    intro cx csx hlk hsz hlh hab
    have htake2 : takeBytes (min N cx.inChunkSize) (bs2.map WireItem.byte ++ tail)
        = some (bs2, tail) := by
      rw [hsz, hmin, ← hb2]
      exact takeBytes_exact _ _
    rw [receiveOnce_lookup_some cx _ _ csx hlk,
      receiveChunk_sls cx csx ⟨HEADER_FORMAT_FULL, csid, t0, N, T, S⟩ _ _ bs2 tail
        hlh rfl htake2,
      if_pos (by rw [hb2]; exact Nat.sub_self N), hab]
    exact ⟨_, _, rfl, rfl, rfl, rfl, Nat.mod_eq_of_lt hsum, _, mapInsert_self .., rfl,
      Nat.mod_eq_of_lt hsum⟩
  rw [receiveOnce_lookup_none c _ _ hfresh,
    receiveChunk_full _ _ _ _ bs1 _ rfl htake1,
    if_pos (by rw [hb1]; exact Nat.sub_self N)]
  exact ⟨_, _, rfl, step2 _ _ (mapInsert_self ..) rfl rfl rfl⟩

/-- C6 witness: concrete run with stream-id 9, length 1, type 4, absolute
timestamp 100, delta 5 on chunk-stream-id 6 of a fresh client. -/
theorem c6_header_inheritance_witness :
    ∃ c1 m1, receiveOnce NewClientState
        (WireItem.header ⟨HEADER_FORMAT_FULL, 6, 100, 1, 4, 9⟩
          :: ([(1 : UInt8)].map WireItem.byte
            ++ (WireItem.header ⟨HEADER_FORMAT_SAME_LENGTH_AND_STREAM, 6, 5, 0, 0, 0⟩
              :: ([(2 : UInt8)].map WireItem.byte ++ []))))
        = StepResult.ok c1
            (WireItem.header ⟨HEADER_FORMAT_SAME_LENGTH_AND_STREAM, 6, 5, 0, 0, 0⟩
              :: ([(2 : UInt8)].map WireItem.byte ++ [])) (some m1)
      ∧ ∃ c2 m2, receiveOnce c1
            (WireItem.header ⟨HEADER_FORMAT_SAME_LENGTH_AND_STREAM, 6, 5, 0, 0, 0⟩
              :: ([(2 : UInt8)].map WireItem.byte ++ []))
          = StepResult.ok c2 [] (some m2)
        ∧ m2.StreamId = 9 ∧ m2.Length = 1 ∧ m2.MsgType = 4
        ∧ m2.AbsoluteTimestamp = 100 + 5
        ∧ ∃ cs2, c2.inChunkStreams 6 = some cs2
          ∧ cs2.lastHeader = some ⟨HEADER_FORMAT_SAME_LENGTH_AND_STREAM, 6, 5, 1, 4, 9⟩
          ∧ cs2.lastInAbsoluteTimestamp = 100 + 5 :=
  c6_header_inheritance NewClientState 6 9 1 4 100 5 _ _ [1] [2] []
    rfl rfl rfl (by decide) rfl rfl (by decide)

/-! ### C8 — chunk-size renegotiation -/

/-- C8: a protocol-control message of type chunk-size (0x01) makes
`handleProtocolMessage` read a 32-bit big-endian value from the payload and
install it as the inbound chunk size; the handler leaves the whole inbound
chunk-stream map — and hence every in-progress message and every byte
already read — untouched, so the change is never retroactive; and the next
chunk read after processing is sized by `min(remaining, new size)`: the new
size governs subsequent chunk-body reads. -/
theorem c8_chunk_size_renegotiation (c : CState) (m : Message)
    (b0 b1 b2 b3 : UInt8) (tl : List UInt8)
    (cs : InboundChunkStream) (pm : Message) (lh h : Header)
    (rest : List WireItem) (bs : List UInt8) (rest2 : List WireItem)
    (hty : m.MsgType = MESSAGE_TYPE_CHUNK_SIZE)
    (hbuf : m.Buffer = b0 :: b1 :: b2 :: b3 :: tl) :
    (handleProtocolMessage c m).inChunkSize
        = ((b0.toNat * 256 + b1.toNat) * 256 + b2.toNat) * 256 + b3.toNat
    ∧ (handleProtocolMessage c m).inChunkStreams = c.inChunkStreams
    ∧ ((handleProtocolMessage c m).inChunkStreams h.ChunkStreamId = some cs →
       cs.lastHeader = some lh →
       cs.currentMessage = some pm →
       h.Format = HEADER_FORMAT_CONTINUATION →
       takeBytes (min (RemainingBytes pm) (handleProtocolMessage c m).inChunkSize) rest
         = some (bs, rest2) →
       bs.length = min (RemainingBytes pm) (handleProtocolMessage c m).inChunkSize
       ∧ ∃ st' out, receiveOnce (handleProtocolMessage c m) (WireItem.header h :: rest)
           = StepResult.ok st' rest2 out
         ∧ ∃ cs', st'.inChunkStreams h.ChunkStreamId = some cs'
           ∧ (cs'.currentMessage = some { pm with Buffer := pm.Buffer ++ bs }
              ∨ out = some { pm with Buffer := pm.Buffer ++ bs })) := by
  refine ⟨by simp [handleProtocolMessage, hty, hbuf, be32], ?_, ?_⟩
  · simp [handleProtocolMessage, hty]
  · intro hlk hlast hcur hfmt htake
    refine ⟨takeBytes_length _ _ _ _ htake, ?_⟩
    rw [receiveOnce_lookup_some _ _ _ _ hlk,
      receiveChunk_cont _ cs pm lh h rest bs rest2 hlast hcur hfmt htake]
    by_cases hz : RemainingBytes { pm with Buffer := pm.Buffer ++ bs } = 0
    · rw [if_pos hz]
      exact ⟨_, _, rfl, _, mapInsert_self .., Or.inr rfl⟩
    · rw [if_neg hz]
      exact ⟨_, _, rfl, _, mapInsert_self .., Or.inl rfl⟩

/-- C8 witness: a chunk-size message with payload `00 00 00 02` installs
inbound chunk size 2; the in-progress message on chunk-stream-id 5 (6 of 10
bytes missing) is untouched by the handler, and the next CONTINUATION chunk
read appends exactly `min 6 2 = 2` bytes. -/
theorem c8_chunk_size_renegotiation_witness :
    (handleProtocolMessage
        { NewClientState with
            inChunkStreams :=
              (mapInsert NewClientState.inChunkStreams 5
                { id := 5
                  lastHeader := some ⟨0, 5, 0, 10, 8, 3⟩
                  lastInAbsoluteTimestamp := 0
                  currentMessage :=
                    some { MsgType := 8
                           ChunkStreamId := 5
                           StreamId := 3
                           Timestamp := 0
                           AbsoluteTimestamp := 0
                           Length := 10
                           Buffer := [9, 9, 9, 9] } }) }
        { MsgType := 1, ChunkStreamId := 2, StreamId := 0, Timestamp := 0,
          AbsoluteTimestamp := 0, Length := 4, Buffer := [0, 0, 0, 2] }).inChunkSize
      = (((0 : UInt8).toNat * 256 + (0 : UInt8).toNat) * 256 + (0 : UInt8).toNat) * 256
          + (2 : UInt8).toNat
    ∧ ([(1 : UInt8), 2].length
        = min (RemainingBytes { MsgType := 8, ChunkStreamId := 5, StreamId := 3, Timestamp := 0, AbsoluteTimestamp := 0, Length := 10, Buffer := [9, 9, 9, 9] })
          (handleProtocolMessage
            { NewClientState with
                inChunkStreams :=
                  (mapInsert NewClientState.inChunkStreams 5
                    { id := 5
                      lastHeader := some ⟨0, 5, 0, 10, 8, 3⟩
                      lastInAbsoluteTimestamp := 0
                      currentMessage :=
                        some { MsgType := 8
                               ChunkStreamId := 5
                               StreamId := 3
                               Timestamp := 0
                               AbsoluteTimestamp := 0
                               Length := 10
                               Buffer := [9, 9, 9, 9] } }) }
            { MsgType := 1, ChunkStreamId := 2, StreamId := 0, Timestamp := 0,
              AbsoluteTimestamp := 0, Length := 4, Buffer := [0, 0, 0, 2] }).inChunkSize
       ∧ ∃ st' out, receiveOnce
            (handleProtocolMessage
              { NewClientState with
                  inChunkStreams :=
                    (mapInsert NewClientState.inChunkStreams 5
                      { id := 5
                        lastHeader := some ⟨0, 5, 0, 10, 8, 3⟩
                        lastInAbsoluteTimestamp := 0
                        currentMessage :=
                          some { MsgType := 8
                                 ChunkStreamId := 5
                                 StreamId := 3
                                 Timestamp := 0
                                 AbsoluteTimestamp := 0
                                 Length := 10
                                 Buffer := [9, 9, 9, 9] } }) }
              { MsgType := 1, ChunkStreamId := 2, StreamId := 0, Timestamp := 0,
                AbsoluteTimestamp := 0, Length := 4, Buffer := [0, 0, 0, 2] })
            (WireItem.header ⟨3, 5, 0, 0, 0, 0⟩
              :: [WireItem.byte 1, WireItem.byte 2, WireItem.byte 3])
            = StepResult.ok st' [WireItem.byte 3] out
         ∧ ∃ cs', st'.inChunkStreams 5 = some cs'
           ∧ (cs'.currentMessage
                = some { MsgType := 8, ChunkStreamId := 5, StreamId := 3, Timestamp := 0, AbsoluteTimestamp := 0, Length := 10, Buffer := [9, 9, 9, 9] ++ [1, 2] }
              ∨ out = some { MsgType := 8, ChunkStreamId := 5, StreamId := 3, Timestamp := 0, AbsoluteTimestamp := 0, Length := 10, Buffer := [9, 9, 9, 9] ++ [1, 2] })) := by
  have H := c8_chunk_size_renegotiation
    { NewClientState with
        inChunkStreams :=
          (mapInsert NewClientState.inChunkStreams 5
            { id := 5
              lastHeader := some ⟨0, 5, 0, 10, 8, 3⟩
              lastInAbsoluteTimestamp := 0
              currentMessage :=
                some { MsgType := 8
                       ChunkStreamId := 5
                       StreamId := 3
                       Timestamp := 0
                       AbsoluteTimestamp := 0
                       Length := 10
                       Buffer := [9, 9, 9, 9] } }) }
    { MsgType := 1, ChunkStreamId := 2, StreamId := 0, Timestamp := 0,
      AbsoluteTimestamp := 0, Length := 4, Buffer := [0, 0, 0, 2] }
    0 0 0 2 []
    { id := 5
      lastHeader := some ⟨0, 5, 0, 10, 8, 3⟩
      lastInAbsoluteTimestamp := 0
      currentMessage :=
        some { MsgType := 8
               ChunkStreamId := 5
               StreamId := 3
               Timestamp := 0
               AbsoluteTimestamp := 0
               Length := 10
               Buffer := [9, 9, 9, 9] } }
    { MsgType := 8, ChunkStreamId := 5, StreamId := 3, Timestamp := 0, AbsoluteTimestamp := 0, Length := 10, Buffer := [9, 9, 9, 9] }
    ⟨0, 5, 0, 10, 8, 3⟩ ⟨3, 5, 0, 0, 0, 0⟩
    [WireItem.byte 1, WireItem.byte 2, WireItem.byte 3]
    [1, 2] [WireItem.byte 3] (by rfl) (by rfl)
  exact ⟨H.1, H.2.2 (by rfl) (by rfl) (by rfl) (by rfl) (by rfl)⟩

/-! ### C10 — the connected flag -/

/-- A receive-loop iteration never raises the connected flag: a continuing
iteration preserves it, a returning iteration either cleared it via
`Disconnect` or left it alone. -/
theorem receiveChunk_connected (c : CState) (cs : InboundChunkStream) (h : Header)
    (rest : List WireItem) :
    (∀ st' r o, receiveChunk c cs h rest = StepResult.ok st' r o →
       st'.connected = c.connected)
    ∧ (∀ st', receiveChunk c cs h rest = StepResult.halt st' →
       st'.connected = false ∨ st'.connected = c.connected) := by
  constructor
  · intro st' r o heq
    unfold receiveChunk at heq
    split at heq
    · cases heq
    · dsimp only at heq
      split at heq
      · cases heq
      · split at heq <;> (cases heq; rfl)
  · intro st' heq
    unfold receiveChunk at heq
    split at heq
    · cases heq
      exact Or.inl rfl
    · dsimp only at heq
      split at heq
      · cases heq
        by_cases hc : c.connected
        · rw [if_pos hc]
          exact Or.inl rfl
        · rw [if_neg hc]
          exact Or.inr rfl
      · split at heq <;> cases heq

/-- Lift of `receiveChunk_connected` to a whole `receiveOnce` iteration. -/
theorem receiveOnce_connected (c : CState) (wire : List WireItem) :
    (∀ st' r o, receiveOnce c wire = StepResult.ok st' r o → st'.connected = c.connected)
    ∧ (∀ st', receiveOnce c wire = StepResult.halt st' →
        st'.connected = false ∨ st'.connected = c.connected) := by
  match wire with
  | [] =>
    refine ⟨fun st' r o heq => ?_, fun st' heq => ?_⟩
    · rw [show receiveOnce c []
          = StepResult.halt (if c.connected then Disconnect c else c) from rfl] at heq
      cases heq
    · rw [show receiveOnce c []
          = StepResult.halt (if c.connected then Disconnect c else c) from rfl] at heq
      cases heq
      by_cases hc : c.connected
      · rw [if_pos hc]
        exact Or.inl rfl
      · rw [if_neg hc]
        exact Or.inr rfl
  | WireItem.byte b :: rest =>
    refine ⟨fun st' r o heq => ?_, fun st' heq => ?_⟩
    · rw [show receiveOnce c (WireItem.byte b :: rest)
          = StepResult.halt (if c.connected then Disconnect c else c) from rfl] at heq
      cases heq
    · rw [show receiveOnce c (WireItem.byte b :: rest)
          = StepResult.halt (if c.connected then Disconnect c else c) from rfl] at heq
      cases heq
      by_cases hc : c.connected
      · rw [if_pos hc]
        exact Or.inl rfl
      · rw [if_neg hc]
        exact Or.inr rfl
  | WireItem.header h :: rest =>
    cases hlook : c.inChunkStreams h.ChunkStreamId with
    | some cs =>
      rw [receiveOnce_lookup_some c h rest cs hlook]
      exact receiveChunk_connected c cs h rest
    | none =>
      rw [receiveOnce_lookup_none c h rest hlook]
      exact receiveChunk_connected _ _ h rest

/-- C10: `handleCommandMessage` sets the connected flag to true for every
message, whatever its type or content — also right after a `Disconnect`
cleared it — and `dispatchMessage` reaches it for every message on the
command chunk-stream-id 3; no other pipeline operation raises the flag:
`Disconnect` clears it, the protocol handler and the send path preserve it,
a receive iteration preserves or clears it, and dispatch raises it only via
chunk-stream-id 3. -/
theorem c10_connected_flag (c : CState) (m : Message) (wire : List WireItem) :
    ((handleCommandMessage c m).connected = true)
    ∧ (∀ c2 : CState, (handleCommandMessage (Disconnect c2) m).connected = true)
    ∧ (dispatchMessage c { m with ChunkStreamId := 3 }
        = handleCommandMessage c { m with ChunkStreamId := 3 })
    ∧ ((Disconnect c).connected = false)
    ∧ ((handleProtocolMessage c m).connected = c.connected)
    ∧ ((sendOnce c m).1.connected = c.connected)
    ∧ (∀ st' r o, receiveOnce c wire = StepResult.ok st' r o →
        st'.connected = c.connected)
    ∧ (∀ st', receiveOnce c wire = StepResult.halt st' →
        st'.connected = false ∨ st'.connected = c.connected)
    ∧ (∀ j, (dispatchMessage c { m with ChunkStreamId := j }).connected = true →
        j = CHUNK_STREAM_ID_COMMAND ∨ c.connected = true) := by
  refine ⟨rfl, fun c2 => rfl, rfl, rfl, ?_, rfl,
    (receiveOnce_connected c wire).1, (receiveOnce_connected c wire).2, ?_⟩
  · unfold handleProtocolMessage
    split <;> rfl
  · intro j hj
    by_cases h3 : j = CHUNK_STREAM_ID_COMMAND
    · exact Or.inl h3
    · right
      by_cases h2 : j = CHUNK_STREAM_ID_PROTOCOL
      · subst h2
        have hp : dispatchMessage c { m with ChunkStreamId := CHUNK_STREAM_ID_PROTOCOL }
            = handleProtocolMessage c { m with ChunkStreamId := CHUNK_STREAM_ID_PROTOCOL } :=
          rfl
        rw [hp] at hj
        have hc : (handleProtocolMessage c
            { m with ChunkStreamId := CHUNK_STREAM_ID_PROTOCOL }).connected = c.connected := by
          unfold handleProtocolMessage
          split <;> rfl
        rw [hc] at hj
        exact hj
      · have hd : dispatchMessage c { m with ChunkStreamId := j } = c := by
          unfold dispatchMessage
          rw [show ({ m with ChunkStreamId := j } : Message).ChunkStreamId = j from rfl,
            if_neg h2, if_neg h3]
        rw [hd] at hj
        exact hj

/-- C10 witness: on a concrete client state and message, the command
handler sets the flag, also after a disconnect, and a non-command dispatch
(id 5) that reports connected implies the client already was. -/
theorem c10_connected_flag_witness :
    ((handleCommandMessage NewClientState
        { MsgType := 17, ChunkStreamId := 3, StreamId := 0, Timestamp := 0,
          AbsoluteTimestamp := 0, Length := 0, Buffer := [] }).connected = true)
    ∧ ((3 : Nat) = CHUNK_STREAM_ID_COMMAND ∨ NewClientState.connected = true)
    ∧ (StepResult.halt NewClientState
        = StepResult.halt NewClientState →
       NewClientState.connected = false ∨ NewClientState.connected = NewClientState.connected) := by
  refine ⟨(c10_connected_flag NewClientState
      { MsgType := 17, ChunkStreamId := 3, StreamId := 0, Timestamp := 0,
        AbsoluteTimestamp := 0, Length := 0, Buffer := [] } []).1, ?_, ?_⟩
  · exact (c10_connected_flag NewClientState
      { MsgType := 17, ChunkStreamId := 3, StreamId := 0, Timestamp := 0,
        AbsoluteTimestamp := 0, Length := 0, Buffer := [] } []).2.2.2.2.2.2.2.2 3 (by decide)
  · intro h
    exact (c10_connected_flag NewClientState
      { MsgType := 17, ChunkStreamId := 3, StreamId := 0, Timestamp := 0,
        AbsoluteTimestamp := 0, Length := 0, Buffer := [] } []).2.2.2.2.2.2.2.1
      NewClientState (by rfl)

/-! ### C5 — chunking boundaries -/

/-- Payload bytes accumulate into the open chunk run. -/
theorem chunkRunsGo_bytes (l : List UInt8) : ∀ (a : Nat) (w : List WireItem),
    chunkRunsGo (some a) (l.map WireItem.byte ++ w)
      = chunkRunsGo (some (a + l.length)) w := by
  induction l with
  | nil => intro a w; rfl
  | cons b t ih =>
    intro a w
    show chunkRunsGo (some (a + 1)) (t.map WireItem.byte ++ w) = _
    rw [ih (a + 1) w]
    simp only [List.length_cons]
    congr 2
    omega

/-- Closing the open run: if the rest of the wire starts with a header (or
ends), the open run is emitted before the remaining runs. -/
theorem chunkRunsGo_flush (n : Nat) (w : List WireItem)
    (hw : w = [] ∨ ∃ hh t, w = WireItem.header hh :: t) :
    chunkRunsGo (some n) w = n :: chunkRuns w := by
  rcases hw with h | ⟨hh, t, h⟩ <;> subst h <;> rfl

/-- The send loop's output is empty or starts with a header. -/
theorem sendLoopGo_shape (fuel : Nat) (h : Header) (buf : List UInt8) (rem C : Nat) :
    sendLoopGo fuel h buf rem C = []
    ∨ ∃ hh t, sendLoopGo fuel h buf rem C = WireItem.header hh :: t := by
  cases fuel with
  | zero => exact Or.inl rfl
  | succ f =>
    by_cases hrem : rem = 0
    · subst hrem
      exact Or.inl (sendLoopGo_zero ..)
    · right
      rw [sendLoopGo_pos f h buf rem C hrem]
      exact ⟨_, _, rfl⟩

/-- Exact chunk sizes emitted by the send loop: for remaining length
`k·C + r` with `0 < r ≤ C`, the loop emits `k` chunks of `C` bytes followed
by one chunk of `r` bytes. -/
theorem sendLoopGo_runs : ∀ (k fuel : Nat) (h : Header) (buf : List UInt8) (r C : Nat),
    0 < C → 0 < r → r ≤ C → k * C + r ≤ fuel → k * C + r ≤ buf.length →
    chunkRuns (sendLoopGo fuel h buf (k * C + r) C) = List.replicate k C ++ [r] := by
  intro k
  induction k with
  | zero =>
    intro fuel h buf r C hC hr hrC hfuel hbuf
    obtain ⟨f, rfl⟩ : ∃ f, fuel = f + 1 := ⟨fuel - 1, by omega⟩
    · rw [show 0 * C + r = r by omega] at *
      rw [sendLoopGo_pos f h buf r C (Nat.pos_iff_ne_zero.mp hr),
        Nat.min_eq_left hrC, Nat.sub_self r, sendLoopGo_zero]
      show chunkRunsGo (some 0) ((buf.take r).map WireItem.byte ++ []) = [r]
      rw [chunkRunsGo_bytes]
      show [0 + (buf.take r).length] = [r]
      rw [List.length_take]
      congr 1
      omega
  | succ k ih =>
    intro fuel h buf r C hC hr hrC hfuel hbuf
    have hexp : (k + 1) * C = k * C + C := by ring
    have hpos : 0 < fuel :=
      lt_of_lt_of_le (lt_of_lt_of_le hr (Nat.le_add_left r _)) hfuel
    obtain ⟨f, rfl⟩ : ∃ f, fuel = f + 1 := ⟨fuel - 1, by omega⟩
    have hrem : (k + 1) * C + r ≠ 0 := by omega
    rw [sendLoopGo_pos f h buf _ C hrem]
    have hCle : C ≤ (k + 1) * C + r := by omega
    rw [Nat.min_eq_right hCle]
    show chunkRunsGo (some 0) ((buf.take C).map WireItem.byte ++ _) = _
    rw [chunkRunsGo_bytes]
    have hlen : (buf.take C).length = C := by
      rw [List.length_take]
      omega
    rw [hlen]
    have hsub : (k + 1) * C + r - C = k * C + r := by omega
    rw [hsub]
    rw [chunkRunsGo_flush (0 + C) _ (sendLoopGo_shape ..)]
    rw [ih f _ _ r C hC hr hrC (by omega) (by rw [List.length_drop]; omega)]
    rw [show 0 + C = C by omega, List.replicate_succ]
    rfl

/-- C5: with negotiated outbound chunk size `C ≥ 1`, a message of declared
length exactly `k·C` (with a full buffer) is emitted as exactly `k` chunks
of `C` payload bytes each and no trailing empty chunk, and a message of
length `k·C + 1` as `k` chunks of `C` bytes followed by one chunk of 1
byte, in that order. -/
theorem c5_chunk_boundaries (C k : Nat) (m m1 : Message) (hC : 0 < C)
    (hm : m.Length = k * C) (hmb : m.Length ≤ m.Buffer.length)
    (hm1 : m1.Length = k * C + 1) (hmb1 : m1.Length ≤ m1.Buffer.length) :
    chunkRuns (sendChunks m C) = List.replicate k C
    ∧ chunkRuns (sendChunks m1 C) = List.replicate k C ++ [1] := by
  constructor
  · unfold sendChunks
    rw [hm] at hmb ⊢
    cases k with
    | zero =>
      rw [show 0 * C = 0 by omega, sendLoopGo_zero]
      rfl
    | succ j =>
      rw [show (j + 1) * C = j * C + C by ring]
      rw [sendLoopGo_runs j _ _ _ C C hC hC (le_refl C) (le_refl _)
        (by rw [show j * C + C = (j + 1) * C by ring]; exact hmb)]
      rw [← List.replicate_succ']
  · unfold sendChunks
    rw [hm1] at hmb1 ⊢
    exact sendLoopGo_runs k _ _ _ 1 C hC (by omega) hC (le_refl _) hmb1

/-- C5 witness: chunk size 2, a message of length 4 gives runs `[2, 2]`, a
message of length 5 gives runs `[2, 2, 1]`. -/
theorem c5_chunk_boundaries_witness :
    chunkRuns (sendChunks
      { MsgType := 8, ChunkStreamId := 4, StreamId := 1, Timestamp := 0,
        AbsoluteTimestamp := 0, Length := 4, Buffer := [1, 2, 3, 4] } 2)
      = List.replicate 2 2
    ∧ chunkRuns (sendChunks
      { MsgType := 8, ChunkStreamId := 4, StreamId := 1, Timestamp := 0,
        AbsoluteTimestamp := 0, Length := 5, Buffer := [1, 2, 3, 4, 5] } 2)
      = List.replicate 2 2 ++ [1] :=
  c5_chunk_boundaries 2 2
    { MsgType := 8, ChunkStreamId := 4, StreamId := 1, Timestamp := 0,
      AbsoluteTimestamp := 0, Length := 4, Buffer := [1, 2, 3, 4] }
    { MsgType := 8, ChunkStreamId := 4, StreamId := 1, Timestamp := 0,
      AbsoluteTimestamp := 0, Length := 5, Buffer := [1, 2, 3, 4, 5] }
    (by decide) (by decide) (by decide) (by decide) (by decide)

/-! ### C1 — send/receive round trip -/

theorem encodeHeader_csid (h : Header) :
    (encodeHeader h).ChunkStreamId = h.ChunkStreamId := by
  unfold encodeHeader
  split
  · rfl
  · split
    · rfl
    · split <;> rfl

theorem encodeHeader_format (h : Header) : (encodeHeader h).Format = h.Format := by
  unfold encodeHeader
  split
  · rfl
  · split
    · rfl
    · split <;> rfl

theorem encodeHeader_full (h : Header) (hf : h.Format = HEADER_FORMAT_FULL) :
    encodeHeader h = h := by
  unfold encodeHeader
  rw [if_pos hf]

/-- Receiving the CONTINUATION chunks of one message: if the send loop
still has `rem > 0` bytes of `pm`'s payload to emit and the receiver holds
`pm` in progress with exactly `rem` bytes missing, then (for some number of
iterations) the receive loop consumes the whole emitted wire and outputs
exactly the message completed with those bytes. -/
theorem runReceive_cont_phase (C : Nat) (hC : 0 < C) :
    ∀ (fuel : Nat) (c : CState) (cs : InboundChunkStream) (pm : Message)
      (lh h : Header) (buf : List UInt8) (rem : Nat),
      c.inChunkSize = C →
      c.inChunkStreams h.ChunkStreamId = some cs →
      cs.lastHeader = some lh →
      cs.currentMessage = some pm →
      h.Format = HEADER_FORMAT_CONTINUATION →
      RemainingBytes pm = rem →
      0 < rem →
      buf.length = rem →
      rem ≤ fuel →
      ∃ n cf, runReceive n c (sendLoopGo fuel h buf rem C)
        = (cf, [], [{ pm with Buffer := pm.Buffer ++ buf }]) := by
  intro fuel
  induction fuel with
  | zero =>
    intro c cs pm lh h buf rem hsz hlk hlast hcur hfmt hrem hpos hbuf hfuel
    omega
  | succ f ih =>
    intro c cs pm lh h buf rem hsz hlk hlast hcur hfmt hrem hpos hbuf hfuel
    have hlk' : c.inChunkStreams (encodeHeader h).ChunkStreamId = some cs := by
      rw [encodeHeader_csid]
      exact hlk
    have hfmt' : (encodeHeader h).Format = HEADER_FORMAT_CONTINUATION := by
      rw [encodeHeader_format]
      exact hfmt
    rw [sendLoopGo_pos f h buf rem C (by omega)]
    by_cases hcase : rem ≤ C
    · -- last chunk: everything remaining fits in one chunk
      rw [Nat.min_eq_left hcase, Nat.sub_self, sendLoopGo_zero]
      rw [show buf.take rem = buf from by rw [← hbuf]; exact List.take_length buf]
      have hmin : min (RemainingBytes pm) c.inChunkSize = rem := by
        rw [hrem, hsz]
        exact Nat.min_eq_left hcase
      have htakeA : takeBytes (min (RemainingBytes pm) c.inChunkSize)
          (buf.map WireItem.byte ++ []) = some (buf, []) := by
        rw [hmin, ← hbuf]
        exact takeBytes_exact _ _
      have hz : RemainingBytes { pm with Buffer := pm.Buffer ++ buf } = 0 := by
        show pm.Length - (pm.Buffer ++ buf).length = 0
        unfold RemainingBytes at hrem
        rw [List.length_append]
        omega
      have hstepA : receiveOnce c (WireItem.header (encodeHeader h)
          :: (buf.map WireItem.byte ++ []))
          = StepResult.ok
              { c with inChunkStreams :=
                  (mapInsert c.inChunkStreams h.ChunkStreamId
                    { cs with lastHeader := some lh,
                              lastInAbsoluteTimestamp :=
                                (cs.lastInAbsoluteTimestamp + lh.Timestamp) % UINT32_MOD,
                              currentMessage := none }) }
              [] (some { pm with Buffer := pm.Buffer ++ buf }) := by
        rw [receiveOnce_lookup_some c (encodeHeader h) _ cs hlk',
          receiveChunk_cont c cs pm lh (encodeHeader h) _ buf [] hlast hcur hfmt' htakeA,
          if_pos hz, encodeHeader_csid]
      refine ⟨1,
        { c with inChunkStreams :=
            (mapInsert c.inChunkStreams h.ChunkStreamId
              { cs with lastHeader := some lh,
                        lastInAbsoluteTimestamp :=
                          (cs.lastInAbsoluteTimestamp + lh.Timestamp) % UINT32_MOD,
                        currentMessage := none }) }, ?_⟩
      show (match receiveOnce c (WireItem.header (encodeHeader h)
          :: (buf.map WireItem.byte ++ [])) with
        | StepResult.halt c2 => (c2, WireItem.header (encodeHeader h)
            :: (buf.map WireItem.byte ++ []), [])
        | StepResult.ok c2 rest out =>
          let r := runReceive 0 c2 rest
          (r.1, r.2.1, out.toList ++ r.2.2)) = _
      rw [hstepA]
      rfl
    · -- a full chunk of C bytes, then recurse
      have hCr : C ≤ rem := le_of_not_le hcase
      rw [Nat.min_eq_right hCr]
      have hmin : min (RemainingBytes pm) c.inChunkSize = C := by
        rw [hrem, hsz]
        exact Nat.min_eq_right hCr
      have hlenC : (buf.take C).length = C := by
        rw [List.length_take]
        omega
      have htakeB : takeBytes (min (RemainingBytes pm) c.inChunkSize)
          ((buf.take C).map WireItem.byte
            ++ sendLoopGo f { h with Format := HEADER_FORMAT_CONTINUATION }
                (buf.drop C) (rem - C) C)
          = some (buf.take C,
              sendLoopGo f { h with Format := HEADER_FORMAT_CONTINUATION }
                (buf.drop C) (rem - C) C) := by
        have hte := takeBytes_exact (buf.take C)
          (sendLoopGo f { h with Format := HEADER_FORMAT_CONTINUATION }
            (buf.drop C) (rem - C) C)
        rw [hlenC] at hte
        rw [hmin]
        exact hte
      have hnz : ¬ RemainingBytes { pm with Buffer := pm.Buffer ++ buf.take C } = 0 := by
        show ¬ pm.Length - (pm.Buffer ++ buf.take C).length = 0
        unfold RemainingBytes at hrem
        rw [List.length_append, hlenC]
        omega
      have hstep : receiveOnce c (WireItem.header (encodeHeader h)
          :: ((buf.take C).map WireItem.byte
            ++ sendLoopGo f { h with Format := HEADER_FORMAT_CONTINUATION }
                (buf.drop C) (rem - C) C))
          = StepResult.ok
              { c with inChunkStreams :=
                  (mapInsert c.inChunkStreams h.ChunkStreamId
                    { cs with lastHeader := some lh,
                              lastInAbsoluteTimestamp :=
                                (cs.lastInAbsoluteTimestamp + lh.Timestamp) % UINT32_MOD,
                              currentMessage :=
                                some { pm with Buffer := pm.Buffer ++ buf.take C } }) }
              (sendLoopGo f { h with Format := HEADER_FORMAT_CONTINUATION }
                (buf.drop C) (rem - C) C)
              none := by
        rw [receiveOnce_lookup_some c (encodeHeader h) _ cs hlk',
          receiveChunk_cont c cs pm lh (encodeHeader h) _ (buf.take C) _
            hlast hcur hfmt' htakeB,
          if_neg hnz, encodeHeader_csid]
      obtain ⟨n, cf, hrec⟩ := ih
        { c with inChunkStreams :=
            (mapInsert c.inChunkStreams h.ChunkStreamId
              { cs with lastHeader := some lh,
                        lastInAbsoluteTimestamp :=
                          (cs.lastInAbsoluteTimestamp + lh.Timestamp) % UINT32_MOD,
                        currentMessage :=
                          some { pm with Buffer := pm.Buffer ++ buf.take C } }) }
        { cs with lastHeader := some lh,
                  lastInAbsoluteTimestamp :=
                    (cs.lastInAbsoluteTimestamp + lh.Timestamp) % UINT32_MOD,
                  currentMessage := some { pm with Buffer := pm.Buffer ++ buf.take C } }
        { pm with Buffer := pm.Buffer ++ buf.take C }
        lh { h with Format := HEADER_FORMAT_CONTINUATION } (buf.drop C) (rem - C)
        hsz (mapInsert_self ..) rfl rfl rfl
        (by show pm.Length - (pm.Buffer ++ buf.take C).length = rem - C
            unfold RemainingBytes at hrem
            rw [List.length_append, hlenC]
            omega)
        (by omega)
        (by rw [List.length_drop]; omega)
        (by omega)
      refine ⟨n + 1, cf, ?_⟩
      show (match receiveOnce c (WireItem.header (encodeHeader h)
          :: ((buf.take C).map WireItem.byte
            ++ sendLoopGo f { h with Format := HEADER_FORMAT_CONTINUATION }
                (buf.drop C) (rem - C) C)) with
        | StepResult.halt c2 => (c2, WireItem.header (encodeHeader h)
            :: ((buf.take C).map WireItem.byte
              ++ sendLoopGo f { h with Format := HEADER_FORMAT_CONTINUATION }
                  (buf.drop C) (rem - C) C), [])
        | StepResult.ok c2 rest out =>
          let r := runReceive n c2 rest
          (r.1, r.2.1, out.toList ++ r.2.2)) = _
      rw [hstep]
      dsimp only
      rw [hrec]
      have hjoin : (pm.Buffer ++ buf.take C) ++ buf.drop C = pm.Buffer ++ buf := by
        rw [List.append_assoc, List.take_append_drop]
      rw [hjoin]
      rfl

/-- C1 counterexample: a message with declared length 0 produces no chunks
at all (`sendLoop` runs its loop zero times), so the receive path gets an
empty wire, immediately hits a header-read failure and returns without
producing any message — there is no reassembled message bit-identical to
the original, contradicting the claim's universal quantification over every
declared length `L`. -/
theorem c1_counterexample :
    sendChunks { MsgType := 20, ChunkStreamId := 3, StreamId := 1, Timestamp := 5, AbsoluteTimestamp := 0, Length := 0, Buffer := [] } 128 = []
    ∧ receiveOnce NewClientState [] = StepResult.halt NewClientState :=
  ⟨rfl, rfl⟩

/-- C1 amended: for every message with declared length `L ≥ 1` whose buffer
holds exactly its declared payload, and every negotiated chunk size
`C ≥ 1`, framing via the send path and reassembling the produced chunk
sequence via the receive path (same `C` on both ends, fresh inbound state
for the message's chunk-stream-id) yields exactly one message, bit-identical
to the original: same type, chunk-stream-id, stream-id, timestamp, declared
length and payload bytes.  (A zero-length message produces no chunks and no
reassembled message.) -/
theorem c1_round_trip (m : Message) (C : Nat) (c : CState)
    (hC : 0 < C) (hL : 0 < m.Length) (hbuf : m.Buffer.length = m.Length)
    (hsz : c.inChunkSize = C) (hfresh : c.inChunkStreams m.ChunkStreamId = none) :
    ∃ n cf m2, runReceive n c (sendChunks m C) = (cf, [], [m2])
      ∧ m2.MsgType = m.MsgType ∧ m2.ChunkStreamId = m.ChunkStreamId
      ∧ m2.StreamId = m.StreamId ∧ m2.Timestamp = m.Timestamp
      ∧ m2.Length = m.Length ∧ m2.Buffer = m.Buffer := by
  obtain ⟨f, hfeq⟩ : ∃ f, m.Length = f + 1 := ⟨m.Length - 1, by omega⟩
  have hwire : sendChunks m C
      = WireItem.header (NewOutboundHeader (NewOutboundChunkStream m.ChunkStreamId) m)
        :: ((m.Buffer.take (min (f + 1) C)).map WireItem.byte
          ++ sendLoopGo f
              { NewOutboundHeader (NewOutboundChunkStream m.ChunkStreamId) m with
                  Format := HEADER_FORMAT_CONTINUATION }
              (m.Buffer.drop (min (f + 1) C)) ((f + 1) - min (f + 1) C) C) := by
    show sendLoopGo m.Length _ m.Buffer m.Length C = _
    rw [hfeq, sendLoopGo_pos f _ m.Buffer (f + 1) C (by omega),
      encodeHeader_full _ rfl]
    rfl
  by_cases hcase : m.Length ≤ C
  · -- the whole message fits in a single chunk
    rw [hwire, Nat.min_eq_left (by omega), ← hfeq,
      show m.Buffer.take m.Length = m.Buffer from by
        rw [← hbuf]; exact List.take_length m.Buffer,
      Nat.sub_self, sendLoopGo_zero]
    have hle : m.Length ≤ c.inChunkSize := by
      rw [hsz]
      exact hcase
    have hminA : min m.Length c.inChunkSize = m.Buffer.length := by
      rw [Nat.min_eq_left hle, hbuf]
    have htakeA : takeBytes (min m.Length c.inChunkSize)
        (m.Buffer.map WireItem.byte ++ []) = some (m.Buffer, []) := by
      rw [hminA]
      exact takeBytes_exact _ _
    have hstepA : receiveOnce c
        (WireItem.header (NewOutboundHeader (NewOutboundChunkStream m.ChunkStreamId) m)
          :: (m.Buffer.map WireItem.byte ++ []))
        = StepResult.ok
            { c with inChunkStreams :=
                (mapInsert
                  (mapInsert c.inChunkStreams m.ChunkStreamId
                    (NewInboundChunkStream m.ChunkStreamId))
                  m.ChunkStreamId
                  { id := m.ChunkStreamId
                    lastHeader :=
                      some (NewOutboundHeader (NewOutboundChunkStream m.ChunkStreamId) m)
                    lastInAbsoluteTimestamp := m.Timestamp
                    currentMessage := none }) }
            []
            (some { MsgType := m.MsgType, ChunkStreamId := m.ChunkStreamId, StreamId := m.StreamId, Timestamp := m.Timestamp, AbsoluteTimestamp := m.Timestamp, Length := m.Length, Buffer := m.Buffer }) := by
      rw [receiveOnce_lookup_none c _ _ hfresh,
        receiveChunk_full _ _ _ _ m.Buffer [] rfl htakeA,
        if_pos (show (NewOutboundHeader (NewOutboundChunkStream m.ChunkStreamId)
            m).MessageLength - m.Buffer.length = 0 by
          simp only [NewOutboundHeader]
          omega)]
      rfl
    refine ⟨1,
      { c with inChunkStreams :=
          (mapInsert
            (mapInsert c.inChunkStreams m.ChunkStreamId
              (NewInboundChunkStream m.ChunkStreamId))
            m.ChunkStreamId
            { id := m.ChunkStreamId
              lastHeader :=
                some (NewOutboundHeader (NewOutboundChunkStream m.ChunkStreamId) m)
              lastInAbsoluteTimestamp := m.Timestamp
              currentMessage := none }) },
      { MsgType := m.MsgType, ChunkStreamId := m.ChunkStreamId, StreamId := m.StreamId, Timestamp := m.Timestamp, AbsoluteTimestamp := m.Timestamp, Length := m.Length, Buffer := m.Buffer },
      ?_, rfl, rfl, rfl, rfl, rfl, rfl⟩
    show (match receiveOnce c
        (WireItem.header (NewOutboundHeader (NewOutboundChunkStream m.ChunkStreamId) m)
          :: (m.Buffer.map WireItem.byte ++ [])) with
      | StepResult.halt c2 => (c2,
          WireItem.header (NewOutboundHeader (NewOutboundChunkStream m.ChunkStreamId) m)
            :: (m.Buffer.map WireItem.byte ++ []), [])
      | StepResult.ok c2 rest out =>
        let r := runReceive 0 c2 rest
        (r.1, r.2.1, out.toList ++ r.2.2)) = _
    rw [hstepA]
    rfl
  · -- first chunk of C bytes, then the continuation phase
    have hCr : C ≤ f + 1 := by omega
    rw [hwire, Nat.min_eq_right hCr]
    have hlenC : (m.Buffer.take C).length = C := by
      rw [List.length_take]
      omega
    have hminB : min m.Length c.inChunkSize = C := by
      rw [hsz]
      exact Nat.min_eq_right (by omega)
    have htakeB : takeBytes (min m.Length c.inChunkSize)
        ((m.Buffer.take C).map WireItem.byte
          ++ sendLoopGo f
              { NewOutboundHeader (NewOutboundChunkStream m.ChunkStreamId) m with
                  Format := HEADER_FORMAT_CONTINUATION }
              (m.Buffer.drop C) ((f + 1) - C) C)
        = some (m.Buffer.take C,
            sendLoopGo f
              { NewOutboundHeader (NewOutboundChunkStream m.ChunkStreamId) m with
                  Format := HEADER_FORMAT_CONTINUATION }
              (m.Buffer.drop C) ((f + 1) - C) C) := by
      have hte := takeBytes_exact (m.Buffer.take C)
        (sendLoopGo f
          { NewOutboundHeader (NewOutboundChunkStream m.ChunkStreamId) m with
              Format := HEADER_FORMAT_CONTINUATION }
          (m.Buffer.drop C) ((f + 1) - C) C)
      rw [hlenC] at hte
      rw [hminB]
      exact hte
    have hstepB : receiveOnce c
        (WireItem.header (NewOutboundHeader (NewOutboundChunkStream m.ChunkStreamId) m)
          :: ((m.Buffer.take C).map WireItem.byte
            ++ sendLoopGo f
                { NewOutboundHeader (NewOutboundChunkStream m.ChunkStreamId) m with
                    Format := HEADER_FORMAT_CONTINUATION }
                (m.Buffer.drop C) ((f + 1) - C) C))
        = StepResult.ok
            { c with inChunkStreams :=
                (mapInsert
                  (mapInsert c.inChunkStreams m.ChunkStreamId
                    (NewInboundChunkStream m.ChunkStreamId))
                  m.ChunkStreamId
                  { id := m.ChunkStreamId
                    lastHeader :=
                      some (NewOutboundHeader (NewOutboundChunkStream m.ChunkStreamId) m)
                    lastInAbsoluteTimestamp := m.Timestamp
                    currentMessage :=
                      some { MsgType := m.MsgType, ChunkStreamId := m.ChunkStreamId, StreamId := m.StreamId, Timestamp := m.Timestamp, AbsoluteTimestamp := m.Timestamp, Length := m.Length, Buffer := m.Buffer.take C } }) }
            (sendLoopGo f
              { NewOutboundHeader (NewOutboundChunkStream m.ChunkStreamId) m with
                  Format := HEADER_FORMAT_CONTINUATION }
              (m.Buffer.drop C) ((f + 1) - C) C)
            none := by
      rw [receiveOnce_lookup_none c _ _ hfresh,
        receiveChunk_full _ _ _ _ (m.Buffer.take C) _ rfl htakeB,
        if_neg (show ¬ (NewOutboundHeader (NewOutboundChunkStream m.ChunkStreamId)
            m).MessageLength - (m.Buffer.take C).length = 0 by
          simp only [NewOutboundHeader]
          rw [hlenC]
          omega)]
      rfl
    obtain ⟨n, cf, hrec⟩ := runReceive_cont_phase C hC f
      { c with inChunkStreams :=
          (mapInsert
            (mapInsert c.inChunkStreams m.ChunkStreamId
              (NewInboundChunkStream m.ChunkStreamId))
            m.ChunkStreamId
            { id := m.ChunkStreamId
              lastHeader :=
                some (NewOutboundHeader (NewOutboundChunkStream m.ChunkStreamId) m)
              lastInAbsoluteTimestamp := m.Timestamp
              currentMessage :=
                some { MsgType := m.MsgType, ChunkStreamId := m.ChunkStreamId, StreamId := m.StreamId, Timestamp := m.Timestamp, AbsoluteTimestamp := m.Timestamp, Length := m.Length, Buffer := m.Buffer.take C } }) }
      { id := m.ChunkStreamId
        lastHeader := some (NewOutboundHeader (NewOutboundChunkStream m.ChunkStreamId) m)
        lastInAbsoluteTimestamp := m.Timestamp
        currentMessage :=
          some { MsgType := m.MsgType, ChunkStreamId := m.ChunkStreamId, StreamId := m.StreamId, Timestamp := m.Timestamp, AbsoluteTimestamp := m.Timestamp, Length := m.Length, Buffer := m.Buffer.take C } }
      { MsgType := m.MsgType, ChunkStreamId := m.ChunkStreamId, StreamId := m.StreamId, Timestamp := m.Timestamp, AbsoluteTimestamp := m.Timestamp, Length := m.Length, Buffer := m.Buffer.take C }
      (NewOutboundHeader (NewOutboundChunkStream m.ChunkStreamId) m)
      { NewOutboundHeader (NewOutboundChunkStream m.ChunkStreamId) m with
          Format := HEADER_FORMAT_CONTINUATION }
      (m.Buffer.drop C) ((f + 1) - C)
      hsz (mapInsert_self ..) rfl rfl rfl
      (by show m.Length - (m.Buffer.take C).length = (f + 1) - C
          rw [hlenC]
          omega)
      (by omega)
      (by rw [List.length_drop]; omega)
      (by omega)
    refine ⟨n + 1, cf,
      { MsgType := m.MsgType, ChunkStreamId := m.ChunkStreamId, StreamId := m.StreamId, Timestamp := m.Timestamp, AbsoluteTimestamp := m.Timestamp, Length := m.Length, Buffer := m.Buffer.take C ++ m.Buffer.drop C },
      ?_, rfl, rfl, rfl, rfl, rfl,
      (show m.Buffer.take C ++ m.Buffer.drop C = m.Buffer from
        List.take_append_drop C m.Buffer)⟩
    show (match receiveOnce c
        (WireItem.header (NewOutboundHeader (NewOutboundChunkStream m.ChunkStreamId) m)
          :: ((m.Buffer.take C).map WireItem.byte
            ++ sendLoopGo f
                { NewOutboundHeader (NewOutboundChunkStream m.ChunkStreamId) m with
                    Format := HEADER_FORMAT_CONTINUATION }
                (m.Buffer.drop C) ((f + 1) - C) C)) with
      | StepResult.halt c2 => (c2,
          WireItem.header (NewOutboundHeader (NewOutboundChunkStream m.ChunkStreamId) m)
            :: ((m.Buffer.take C).map WireItem.byte
              ++ sendLoopGo f
                  { NewOutboundHeader (NewOutboundChunkStream m.ChunkStreamId) m with
                      Format := HEADER_FORMAT_CONTINUATION }
                  (m.Buffer.drop C) ((f + 1) - C) C), [])
      | StepResult.ok c2 rest out =>
        let r := runReceive n c2 rest
        (r.1, r.2.1, out.toList ++ r.2.2)) = _
    rw [hstepB]
    dsimp only
    dsimp only at hrec
    rw [hrec]
    rfl

/-- C1 witness: message of length 3 on chunk-stream-id 5, chunk size 2. -/
theorem c1_round_trip_witness :
    ∃ n cf m2, runReceive n { NewClientState with inChunkSize := 2 }
        (sendChunks { MsgType := 9, ChunkStreamId := 5, StreamId := 7, Timestamp := 42, AbsoluteTimestamp := 0, Length := 3, Buffer := [1, 2, 3] } 2)
        = (cf, [], [m2])
      ∧ m2.MsgType = 9 ∧ m2.ChunkStreamId = 5 ∧ m2.StreamId = 7 ∧ m2.Timestamp = 42
      ∧ m2.Length = 3 ∧ m2.Buffer = [1, 2, 3] :=
  c1_round_trip
    { MsgType := 9, ChunkStreamId := 5, StreamId := 7, Timestamp := 42, AbsoluteTimestamp := 0, Length := 3, Buffer := [1, 2, 3] }
    2 { NewClientState with inChunkSize := 2 }
    (by decide) (by decide) (by decide) (by rfl) (by rfl)

end Rtmp
